import Mathlib

/-!
Verification of the link-shortener core (FastAPI URL-shortening service).

Shallow embedding of the core logic:
 - `app/utils/url_validator.py`   (URL normalisation/validation)
 - `app/utils/short_code_generator.py` (modelled as an external code stream)
 - `app/db/models.py`             (the two table rows, fields used by the core)
 - `app/repositories/url_repository.py` and `url_stats_repository.py`
 - `app/services/url_service.py` and `stats_services.py`
 - `app/api/endpoints.py`         (redirect and stats endpoints)

Stores are embedded as Lean lists of rows (a table is a sequence of rows;
`select ... where` + `.first()` is `List.find?`, `insert` is an append,
the conditional `update` is a `List.map` guarded on the where-clause).
Timestamps (`datetime.now()`) are abstracted as `Nat` values supplied by the
caller; HTTP failures are an explicit `Except`.
-/

namespace LinkShort

deriving instance DecidableEq for Except

/-! ### Python string primitives used by `url_validator.py` -/

/-- The ASCII whitespace characters removed by Python `str.strip()`
(space, tab, newline, carriage return, vertical tab, form feed).
Python also strips some further Unicode whitespace; the inputs exercised
here are ASCII, where this set is exact. -/
def isPySpace (c : Char) : Bool :=
  c = ' ' || c = '\t' || c = '\n' || c = '\r' || c = Char.ofNat 11 || c = Char.ofNat 12

/-- Python `str.strip()`: drop leading and trailing whitespace. -/
def pyStrip (s : String) : String :=
  String.mk (((s.toList.dropWhile isPySpace).reverse.dropWhile isPySpace).reverse)

/-- Python `s.startswith(p)` for a single string argument. -/
def strStartsWith (s p : String) : Bool :=
  p.toList.isPrefixOf s.toList

/-- Python `c in s` for a single character. -/
def strContainsChar (s : String) (c : Char) : Bool :=
  s.toList.contains c

/-- A raised `fastapi.HTTPException(status_code, detail)`. -/
structure HTTPError where
  status : Nat
  detail : String
deriving DecidableEq, Repr

/-! ### `app/utils/url_validator.py` -/

/-- The `scheme`/`netloc` components of `urllib.parse.urlparse` that
`validate_url` inspects. -/
structure ParsedURL where
  scheme : String
  netloc : String
deriving DecidableEq, Repr

/-- `urllib.parse.urlparse`, on the fragment of inputs `validate_url` feeds it:
`validate_url` always parses a string that starts with `http://` or
`https://` (it prepends `https://` otherwise), so the scheme is the literal
prefix (already lower-case) and the netloc is everything after `//` up to the
first of `/`, `?`, `#`.  CPython raises `ValueError` on a netloc with an
unmatched square bracket; that error path is modelled.  (CPython additionally
validates the inside of a matched bracket pair; no input considered here
contains brackets, and a stricter parser only turns more inputs into
failures.)  The last branch, for strings with neither prefix, is never
reached from `validate_url`. -/
def urlparseHttp (url : String) : Except String ParsedURL :=
  let (scheme, rest) :=
    if strStartsWith url "http://" then ("http", url.toList.drop 7)
    else if strStartsWith url "https://" then ("https", url.toList.drop 8)
    else ("", url.toList)
  let netloc := String.mk (rest.takeWhile (fun c => !(c = '/' || c = '?' || c = '#')))
  if (strContainsChar netloc '[' && !strContainsChar netloc ']') ||
     (strContainsChar netloc ']' && !strContainsChar netloc '[') then
    .error "Invalid IPv6 URL"
  else
    .ok ⟨scheme, netloc⟩

/-- The `url = f"https://{url}"` step of `validate_url`: prepend `https://`
unless the string already starts with `http://` or `https://`. -/
def addSchemeIfMissing (u : String) : String :=
  if strStartsWith u "http://" || strStartsWith u "https://" then u
  else "https://" ++ u

/-- `validate_url` from `app/utils/url_validator.py`: trim, prepend a scheme
when missing, parse, and check scheme / non-empty netloc / a dot in the
netloc, raising HTTP 400 on each failure.  A `ValueError` from `urlparse`
is caught by the `except` clause and re-raised as HTTP 400. -/
def validate_url (url : String) : Except HTTPError String :=
  if pyStrip url = "" then .error ⟨400, "URL cannot be empty"⟩
  else
    match urlparseHttp (addSchemeIfMissing (pyStrip url)) with
    | .error e => .error ⟨400, "Invalid URL: " ++ e⟩
    | .ok parsed =>
      if ¬ (parsed.scheme = "http" ∨ parsed.scheme = "https") then
        .error ⟨400, "URL must use http or https"⟩
      else if parsed.netloc = "" then
        .error ⟨400, "Invalid URL format"⟩
      else if strContainsChar parsed.netloc '.' = false then
        .error ⟨400, "Invalid domain"⟩
      else
        .ok (addSchemeIfMissing (pyStrip url))

end LinkShort

namespace LinkShort

/-- Claim C7: `normalize("ftp://example.com")` fails with `InvalidURL`
(an HTTP 400 client error).  The input lacks an `http://`/`https://` start,
so the code prepends `https://`, parses netloc `"ftp:"`, and rejects it at
the no-dot-in-host check with status 400. -/
theorem validate_url_ftp_fails :
    validate_url "ftp://example.com" = .error ⟨400, "Invalid domain"⟩ := by
  decide

/-- Claim C5: whenever `validate_url` succeeds, (1) if the trimmed input did
not start with `http://` or `https://`, the result is exactly `https://` plus
the trimmed input and it parses with a non-empty netloc containing a dot;
(2) if the trimmed input already started with a scheme, the result is the
trimmed input unchanged. -/
theorem validate_url_scheme_addition (s r : String)
    (h : validate_url s = .ok r) :
    ((strStartsWith (pyStrip s) "http://" = false ∧
      strStartsWith (pyStrip s) "https://" = false) →
      r = "https://" ++ pyStrip s ∧
      ∃ p, urlparseHttp r = .ok p ∧ p.netloc ≠ "" ∧
        strContainsChar p.netloc '.' = true) ∧
    ((strStartsWith (pyStrip s) "http://" = true ∨
      strStartsWith (pyStrip s) "https://" = true) →
      r = pyStrip s) := by
  unfold validate_url at h
  split at h
  · simp at h
  split at h
  · simp at h
  rename_i parsed hp
  split at h
  · simp at h
  rename_i hscheme
  split at h
  · simp at h
  rename_i hemp
  split at h
  · simp at h
  rename_i hdot
  rw [Except.ok.injEq] at h
  subst h
  constructor
  · rintro ⟨h1, h2⟩
    have hu : addSchemeIfMissing (pyStrip s) = "https://" ++ pyStrip s := by
      unfold addSchemeIfMissing
      rw [h1, h2]
      simp
    exact ⟨hu, parsed, hp, hemp, by simpa using hdot⟩
  · intro h1
    unfold addSchemeIfMissing
    rcases h1 with h1 | h1 <;> simp [h1]

/-- Witness for C5 at the concrete input `" example.com "`. -/
theorem validate_url_scheme_addition_witness :
    validate_url " example.com " = Except.ok "https://example.com" ∧
    ("https://example.com" : String) = "https://" ++ pyStrip " example.com " :=
  ⟨by decide,
   ((validate_url_scheme_addition " example.com " "https://example.com"
      (by decide)).1 (by decide)).1⟩

/-! ### `app/db/models.py` — the two table rows

Only the columns the core logic reads or writes are embedded; `id`,
`created_at` and `updated_at` are populated by defaults and never consulted
by any service, repository or endpoint below. -/

/-- A row of the `urls` table (model `ShortURL`).  `short_code` carries a
unique constraint at the store level. -/
structure ShortURL where
  original_url : String
  short_code : String
  is_active : Bool
deriving DecidableEq, Repr

/-- A row of the `url_stats` table (model `URLStats`).  `short_code` carries
a unique constraint; `visit_count` is an SQL integer (embedded as `Int`, so
non-negativity is a property to prove, not a typing artifact);
`last_visited_at` is a nullable timestamp, abstracted as `Option Nat`. -/
structure URLStats where
  short_code : String
  visit_count : Int
  last_visited_at : Option Nat
deriving DecidableEq, Repr

/-! ### `app/repositories/url_repository.py` -/

namespace URLRepository

/-- `select(ShortURL).where(short_code == code)` + `.first()`. -/
def get_by_short_code (store : List ShortURL) (code : String) : Option ShortURL :=
  store.find? (fun r => r.short_code == code)

/-- `session.add(short_url)` + commit: the store with the new row inserted. -/
def create (store : List ShortURL) (short_url : ShortURL) : List ShortURL :=
  store ++ [short_url]

end URLRepository

/-! ### `app/repositories/url_stats_repository.py` -/

namespace URLStatsRepository

/-- `select(URLStats).where(short_code == code)` + `.first()`. -/
def get_by_short_code (stats : List URLStats) (code : String) : Option URLStats :=
  stats.find? (fun r => r.short_code == code)

/-- `increment_visit_count`: first the conditional update
`UPDATE url_stats SET visit_count = visit_count + 1, last_visited_at = now()
WHERE short_code = ?` (every row matching the where-clause is updated and
`rowcount` counts them), then, if `rowcount == 0`, insert
`URLStats(short_code, visit_count=1, last_visited_at=now())`.
The two `datetime.now()` calls are abstracted as the single instant `now`. -/
def increment_visit_count (stats : List URLStats) (code : String) (now : Nat) :
    List URLStats :=
  let updated := stats.map (fun r =>
    if r.short_code == code then
      { r with visit_count := r.visit_count + 1, last_visited_at := some now }
    else r)
  let rowcount := (stats.filter (fun r => r.short_code == code)).length
  if rowcount = 0 then
    updated ++ [{ short_code := code, visit_count := 1, last_visited_at := some now }]
  else
    updated

end URLStatsRepository

/-! ### `app/services/stats_services.py` -/

namespace URLStatsService

/-- The dict returned by `URLStatsService.get_stats`: keys `short_code`,
`visit_count`, `last_visited_at`.  In the row-exists branch the Python value
under `last_visited_at` is a string (`str(...)`); in the no-row branch it is
`None`; hence `Option String`. -/
structure StatsResult where
  short_code : String
  visit_count : Int
  last_visited_at : Option String
deriving DecidableEq, Repr

/-- Python `str(x)` applied to a `datetime | None` column value:
`str(None)` is the four-character string `"None"`; a datetime renders as its
textual form, abstracted here as the decimal rendering of the model
timestamp. -/
def pyStrOfDatetime : Option Nat → String
  | none => "None"
  | some t => toString t

/-- `get_stats`: look the row up; if present, return the dict with
`visit_count` from the row and `last_visited_at` passed through `str(...)`;
otherwise return `{short_code, 0, None}`. -/
def get_stats (stats : List URLStats) (code : String) : StatsResult :=
  match URLStatsRepository.get_by_short_code stats code with
  | some row => ⟨code, row.visit_count, some (pyStrOfDatetime row.last_visited_at)⟩
  | none => ⟨code, 0, none⟩

/-- `increment_visit`: delegate to the repository. -/
def increment_visit (stats : List URLStats) (code : String) (now : Nat) :
    List URLStats :=
  URLStatsRepository.increment_visit_count stats code now

end URLStatsService

/-! ### Helper lemmas on lists -/

/-- A map that fixes every element of the list is the identity on it. -/
theorem map_id_of_mem {α : Type} (l : List α) (f : α → α)
    (h : ∀ a ∈ l, f a = a) : l.map f = l := by
  induction l with
  | nil => rfl
  | cons a t ih =>
    simp only [List.map_cons]
    rw [h a (by simp), ih (fun b hb => h b (by simp [hb]))]

/-- When a row of `stats` matches the where-clause, the `UPDATE` path is
taken (no insert): `increment_visit_count` is the guarded map. -/
theorem increment_eq_map_of_mem (stats : List URLStats) (code : String)
    (now : Nat) (hex : ∃ r ∈ stats, r.short_code = code) :
    URLStatsRepository.increment_visit_count stats code now =
      stats.map (fun r =>
        if r.short_code == code then
          { r with visit_count := r.visit_count + 1, last_visited_at := some now }
        else r) := by
  obtain ⟨r, hr, hc⟩ := hex
  have hmem : r ∈ stats.filter (fun r => r.short_code == code) :=
    List.mem_filter.mpr ⟨hr, by simp [hc]⟩
  have hlen : (stats.filter (fun r => r.short_code == code)).length ≠ 0 := by
    intro h0
    rw [List.length_eq_zero] at h0
    rw [h0] at hmem
    exact absurd hmem (List.not_mem_nil r)
  simp only [URLStatsRepository.increment_visit_count]
  rw [if_neg hlen]

/-- When no row matches the where-clause, the `UPDATE` touches nothing and
the insert path appends the fresh row. -/
theorem increment_eq_append_of_absent (stats : List URLStats) (code : String)
    (now : Nat) (hab : ∀ r ∈ stats, r.short_code ≠ code) :
    URLStatsRepository.increment_visit_count stats code now =
      stats ++ [{ short_code := code, visit_count := 1, last_visited_at := some now }] := by
  have hfil : stats.filter (fun r => r.short_code == code) = [] :=
    List.filter_eq_nil_iff.mpr (fun a ha => by simp [hab a ha])
  have hmap : stats.map (fun r =>
      if r.short_code == code then
        { r with visit_count := r.visit_count + 1, last_visited_at := some now }
      else r) = stats :=
    map_id_of_mem _ _ (fun a ha => by simp [hab a ha])
  simp only [URLStatsRepository.increment_visit_count]
  rw [hfil, hmap]
  simp

/-- Claim C1: if a `VisitStats` row for `code` exists, `increment` bumps
exactly the matching rows' `visit_count` by one and stamps `last_visited_at`
with the current time, leaving every other row (and the row count) unchanged;
if no row for `code` exists (the `UPDATE` affects zero rows), it inserts
exactly one new row `{code, visit_count := 1, last_visited_at := now}`. -/
theorem increment_visit_count_correct (stats : List URLStats) (code : String)
    (now : Nat) :
    ((∃ r ∈ stats, r.short_code = code) →
      (URLStatsRepository.increment_visit_count stats code now).length = stats.length ∧
      ∀ (i : Nat) (r : URLStats), stats[i]? = some r →
        (URLStatsRepository.increment_visit_count stats code now)[i]? =
          some (if r.short_code == code then
                  { r with visit_count := r.visit_count + 1, last_visited_at := some now }
                else r)) ∧
    ((∀ r ∈ stats, r.short_code ≠ code) →
      URLStatsRepository.increment_visit_count stats code now =
        stats ++ [{ short_code := code, visit_count := 1, last_visited_at := some now }]) := by
  constructor
  · intro hex
    rw [increment_eq_map_of_mem stats code now hex]
    constructor
    · exact List.length_map stats _
    · intro i r hi
      rw [List.getElem?_map, hi]
      rfl
  · exact increment_eq_append_of_absent stats code now

/-- Witness for C1: a one-row store for `"abc"` with count 2 is bumped to
count 3 and timestamp 7 at index 0. -/
theorem increment_visit_count_correct_witness :
    (URLStatsRepository.increment_visit_count
        [⟨"abc", 2, none⟩] "abc" 7)[0]? = some ⟨"abc", 3, some 7⟩ := by
  have h := (increment_visit_count_correct [⟨"abc", 2, none⟩] "abc" 7).1
    ⟨⟨"abc", 2, none⟩, by simp, rfl⟩
  have h2 := h.2 0 ⟨"abc", 2, none⟩ rfl
  rw [h2]
  decide

/-- Claim C6: for a short code with no `VisitStats` row, `get_stats` does not
fail and returns `{short_code, visit_count := 0, last_visited_at := null}`. -/
theorem get_stats_no_row (stats : List URLStats) (code : String)
    (h : ∀ r ∈ stats, r.short_code ≠ code) :
    URLStatsService.get_stats stats code = ⟨code, 0, none⟩ := by
  have hn : URLStatsRepository.get_by_short_code stats code = none :=
    List.find?_eq_none.mpr (fun x hx => by simp [h x hx])
  simp [URLStatsService.get_stats, hn]

/-- Witness for C6 on a store that holds stats only for a different code. -/
theorem get_stats_no_row_witness :
    URLStatsService.get_stats [⟨"zz0000", 4, some 1⟩] "abc" = ⟨"abc", 0, none⟩ :=
  get_stats_no_row [⟨"zz0000", 4, some 1⟩] "abc" (by decide)

/-- Claim C9: when a `VisitStats` row exists, `get_stats` returns
`last_visited_at` as the string rendering (`str(...)`) of the stored
timestamp; in particular a stored null timestamp comes back as the literal
string `"None"`, not as null. -/
theorem get_stats_stringifies_timestamp (stats : List URLStats) (code : String)
    (row : URLStats)
    (h : URLStatsRepository.get_by_short_code stats code = some row) :
    URLStatsService.get_stats stats code =
      ⟨code, row.visit_count, some (URLStatsService.pyStrOfDatetime row.last_visited_at)⟩ ∧
    (row.last_visited_at = none →
      (URLStatsService.get_stats stats code).last_visited_at = some "None") := by
  constructor
  · simp [URLStatsService.get_stats, h]
  · intro hnone
    simp [URLStatsService.get_stats, h, hnone, URLStatsService.pyStrOfDatetime]

/-- Witness for C9: a row with a null timestamp yields the string `"None"`. -/
theorem get_stats_stringifies_timestamp_witness :
    (URLStatsService.get_stats [⟨"abc", 3, none⟩] "abc").last_visited_at =
      some "None" :=
  (get_stats_stringifies_timestamp [⟨"abc", 3, none⟩] "abc" ⟨"abc", 3, none⟩
    (by decide)).2 rfl

/-! ### `app/services/url_service.py`

`generate_short_code()` draws a fresh random code on every call; the stream
of codes the generator would return is passed in as `gen : Nat → String`
(`gen i` is the code produced on the i-th call of the loop). -/

/-- A failure raised by Python code: either a `fastapi.HTTPException`,
or a `NameError` — the exception CPython raises when a `raise X(...)`
statement names an identifier `X` that is not defined in the module. -/
inductive PyFailure where
  | httpError (status : Nat) (detail : String)
  | nameError (missing : String)
deriving DecidableEq, Repr

namespace URLService

/-- The `for _ in range(MAX_ATTEMPTS)` loop of `create_short_url`, with
`k` attempts remaining and `i` calls of the generator already made.
Each iteration draws `gen i`, checks the store, and on a miss persists
`ShortURL(original_url=normalized, short_code=code)` (with `is_active`
defaulting to true) and returns it together with the new store.
When the loop exhausts all attempts, the source executes
`raise HTTPException(status_code=500, detail="Failed to generate unique
short code")` — but `url_service.py` never imports `HTTPException`, so
CPython raises `NameError: name 'HTTPException' is not defined` instead. -/
def create_short_url_loop (store : List ShortURL) (gen : Nat → String)
    (normalized : String) :
    Nat → Nat → Except PyFailure (ShortURL × List ShortURL)
  | 0, _ => .error (.nameError "HTTPException")
  | k + 1, i =>
    let code := gen i
    match URLRepository.get_by_short_code store code with
    | some _ => create_short_url_loop store gen normalized k (i + 1)
    | none =>
      let short_url : ShortURL :=
        { original_url := normalized, short_code := code, is_active := true }
      .ok (short_url, URLRepository.create store short_url)

/-- `MAX_ATTEMPTS` from `create_short_url`. -/
def MAX_ATTEMPTS : Nat := 5

/-- `create_short_url`: validate/normalize the URL (propagating its
HTTP 400 failures), then run the bounded collision-retry loop. -/
def create_short_url (store : List ShortURL) (gen : Nat → String)
    (original_url : String) : Except PyFailure (ShortURL × List ShortURL) :=
  match validate_url original_url with
  | .error e => .error (.httpError e.status e.detail)
  | .ok normalized => create_short_url_loop store gen normalized MAX_ATTEMPTS 0

/-- `get_original_url`: look the code up and return `original_url` when the
record exists and is active, `None` otherwise. -/
def get_original_url (store : List ShortURL) (code : String) : Option String :=
  match URLRepository.get_by_short_code store code with
  | some r => if r.is_active then some r.original_url else none
  | none => none

end URLService

/-! ### `app/api/endpoints.py` -/

namespace Endpoints

/-- `GET /{short_code}`: resolve the code (404 when `get_original_url` is
falsy — `None` or the empty string), re-add `https://` defensively when the
stored URL lacks a scheme, then increment stats and answer a 307 redirect.
Returned are the response (redirect target or HTTP error) and the stats
store after the request. -/
def redirect_to_url (urls : List ShortURL) (stats : List URLStats)
    (code : String) (now : Nat) :
    Except HTTPError String × List URLStats :=
  match URLService.get_original_url urls code with
  | none => (.error ⟨404, "Short URL not found"⟩, stats)
  | some u =>
    if u = "" then (.error ⟨404, "Short URL not found"⟩, stats)
    else
      let u2 := if strStartsWith u "http://" || strStartsWith u "https://" then u
                else "https://" ++ u
      (.ok u2, URLStatsRepository.increment_visit_count stats code now)

/-- Python truthiness of the value tested in the 404 guard of
`GET /stats/{short_code}`.  The guard reads
`if not stats_service.get_stats(session, short_code):` without `await`, so
the tested value is a coroutine object, and a coroutine object is always
truthy; even under an `await`, `get_stats` returns a dict with three keys,
and a non-empty dict is truthy.  Under either reading the value is truthy. -/
def statsTruthy (_ : URLStatsService.StatsResult) : Bool := true

/-- `GET /stats/{short_code}`: fetch the stats dict; when `visit_count == 0`
test the (truthy) guard and raise 404 only if it were falsy; otherwise
answer the dict as the response schema. -/
def get_url_stats (stats : List URLStats) (code : String) :
    Except HTTPError URLStatsService.StatsResult :=
  let s := URLStatsService.get_stats stats code
  if s.visit_count = 0 then
    if !(statsTruthy (URLStatsService.get_stats stats code)) then
      .error ⟨404, "Short URL not found"⟩
    else .ok s
  else .ok s

end Endpoints

/-! ### Claims about the shortening workflow and the endpoints -/

/-- Any successful run of the retry loop created the returned record from
the normalized URL with a code that was free in the store, appended it, and
left it active. -/
theorem create_short_url_loop_ok (store : List ShortURL) (gen : Nat → String)
    (normalized : String) :
    ∀ (k i : Nat) (su : ShortURL) (store' : List ShortURL),
      URLService.create_short_url_loop store gen normalized k i = .ok (su, store') →
      su.original_url = normalized ∧ su.is_active = true ∧
      URLRepository.get_by_short_code store su.short_code = none ∧
      store' = store ++ [su] := by
  intro k
  induction k with
  | zero =>
    intro i su store' h
    simp [URLService.create_short_url_loop] at h
  | succ k ih =>
    intro i su store' h
    simp only [URLService.create_short_url_loop] at h
    cases hg : URLRepository.get_by_short_code store (gen i) with
    | some r =>
      rw [hg] at h
      exact ih (i + 1) su store' h
    | none =>
      rw [hg] at h
      simp only [Except.ok.injEq, Prod.mk.injEq] at h
      obtain ⟨hsu, hst⟩ := h
      subst hsu
      refine ⟨rfl, rfl, hg, ?_⟩
      rw [← hst]
      rfl

/-- Claim C2 (evaluation at the failing input): with a store already holding
the code that the generator keeps producing, all 5 attempts collide and
`create_short_url` raises `NameError` — the source executes
`raise HTTPException(status_code=500, ...)`, but `HTTPException` is not
imported in `app/services/url_service.py`, so no HTTP 500
(`CodeAllocationExhausted`) failure is ever constructed. -/
theorem create_short_url_exhaustion_raises_nameerror :
    URLService.create_short_url [⟨"https://a.com", "cccccc", true⟩]
      (fun _ => "cccccc") "example.com" =
      .error (.nameError "HTTPException") := by
  decide

/-- Claim C3: when `shorten(u)` succeeds with record `su` and new store
`store'`, resolving `su.short_code` against `store'` returns exactly the
normalized form of `u`, which is also what the record stores. -/
theorem shorten_resolve_roundtrip (store : List ShortURL) (gen : Nat → String)
    (u : String) (su : ShortURL) (store' : List ShortURL)
    (h : URLService.create_short_url store gen u = .ok (su, store')) :
    ∃ n, validate_url u = .ok n ∧ su.original_url = n ∧
      URLService.get_original_url store' su.short_code = some n := by
  unfold URLService.create_short_url at h
  cases hv : validate_url u with
  | error e => rw [hv] at h; simp at h
  | ok n =>
    rw [hv] at h
    obtain ⟨ho, ha, hn, hst⟩ := create_short_url_loop_ok store gen n _ _ su store' h
    refine ⟨n, rfl, ho, ?_⟩
    unfold URLService.get_original_url URLRepository.get_by_short_code
    rw [hst, List.find?_append]
    have hstore : store.find? (fun r => r.short_code == su.short_code) = none := hn
    rw [hstore]
    simp [List.find?_cons, ha, ho]

/-- Witness for C3 on the empty store with a constant generator. -/
theorem shorten_resolve_roundtrip_witness :
    ∃ n, validate_url "example.com" = .ok n ∧
      (⟨"https://example.com", "abc123", true⟩ : ShortURL).original_url = n ∧
      URLService.get_original_url [⟨"https://example.com", "abc123", true⟩]
        (⟨"https://example.com", "abc123", true⟩ : ShortURL).short_code = some n :=
  shorten_resolve_roundtrip [] (fun _ => "abc123") "example.com"
    ⟨"https://example.com", "abc123", true⟩
    [⟨"https://example.com", "abc123", true⟩] (by decide)

/-- Claim C4: when no record for the code exists, or the record is inactive,
the redirect endpoint answers 404 and returns the stats store unchanged —
no stats row is created and no visit count is incremented. -/
theorem redirect_not_found_leaves_stats (urls : List ShortURL)
    (stats : List URLStats) (code : String) (now : Nat)
    (h : URLRepository.get_by_short_code urls code = none ∨
         ∃ r, URLRepository.get_by_short_code urls code = some r ∧
           r.is_active = false) :
    Endpoints.redirect_to_url urls stats code now =
      (.error ⟨404, "Short URL not found"⟩, stats) := by
  have hres : URLService.get_original_url urls code = none := by
    unfold URLService.get_original_url
    rcases h with h | ⟨r, hr, hi⟩
    · rw [h]
    · rw [hr]
      simp [hi]
  unfold Endpoints.redirect_to_url
  rw [hres]

/-- Witness for C4: an inactive record yields 404 and an unchanged stats
store. -/
theorem redirect_not_found_leaves_stats_witness :
    Endpoints.redirect_to_url [⟨"https://a.com", "x1", false⟩]
      [⟨"x1", 1, none⟩] "x1" 3 =
      (.error ⟨404, "Short URL not found"⟩, [⟨"x1", 1, none⟩]) :=
  redirect_not_found_leaves_stats [⟨"https://a.com", "x1", false⟩]
    [⟨"x1", 1, none⟩] "x1" 3
    (Or.inr ⟨⟨"https://a.com", "x1", false⟩, by decide, rfl⟩)

/-- Claim C10: `GET /stats/{short_code}` always answers the stats result and
never raises its 404 branch, whatever the stores hold — the guard tests a
truthy value (an un-awaited coroutine; a non-empty dict under an `await`). -/
theorem get_url_stats_never_404 (stats : List URLStats) (code : String) :
    Endpoints.get_url_stats stats code =
      .ok (URLStatsService.get_stats stats code) := by
  unfold Endpoints.get_url_stats
  simp [Endpoints.statsTruthy]

/-! ### The system as a transition system, for the store invariants -/

/-- The persistent state: the `urls` table and the `url_stats` table. -/
structure SysState where
  urls : List ShortURL
  stats : List URLStats

/-- One request against the core: `POST /shorten`, `GET /{code}` (resolve
plus increment), a bare stats increment (§4.5 contract), or
`GET /stats/{code}`. -/
inductive Op where
  | shorten (gen : Nat → String) (original_url : String)
  | redirect (code : String) (now : Nat)
  | increment (code : String) (now : Nat)
  | stats_query (code : String)

/-- Effect of one request on the persistent state.  A failed shorten leaves
the state unchanged; a redirect always carries its stats side effect as
computed by the endpoint; a stats query writes nothing. -/
def applyOp (s : SysState) : Op → SysState
  | .shorten gen u =>
    match URLService.create_short_url s.urls gen u with
    | .ok (_, urls') => ⟨urls', s.stats⟩
    | .error _ => s
  | .redirect code now =>
    ⟨s.urls, (Endpoints.redirect_to_url s.urls s.stats code now).2⟩
  | .increment code now =>
    ⟨s.urls, URLStatsRepository.increment_visit_count s.stats code now⟩
  | .stats_query _ => s

/-- States reachable from the empty database by core operations. -/
inductive Reachable : SysState → Prop where
  | init : Reachable ⟨[], []⟩
  | step (s : SysState) (op : Op) : Reachable s → Reachable (applyOp s op)

/-- At most one `VisitStats` row per short code (the store-level unique
constraint on `url_stats.short_code`). -/
def statsWF (stats : List URLStats) : Prop :=
  List.Pairwise (fun a b => a.short_code ≠ b.short_code) stats

/-- Every visit count in the store is a non-negative integer. -/
def statsNonneg (stats : List URLStats) : Prop :=
  ∀ r ∈ stats, 0 ≤ r.visit_count

/-- Every row existing in `old` still exists in `new` (same short code) with
a visit count that has not decreased. -/
def countsMonotone (old new : List URLStats) : Prop :=
  ∀ (c : String) (r : URLStats),
    URLStatsRepository.get_by_short_code old c = some r →
    ∃ r', URLStatsRepository.get_by_short_code new c = some r' ∧
      r.visit_count ≤ r'.visit_count

theorem countsMonotone_refl (l : List URLStats) : countsMonotone l l :=
  fun _ r h => ⟨r, h, le_refl _⟩

/-- The guarded update of `increment_visit_count` never changes a row's
short code. -/
theorem increment_update_keeps_code (code : String) (now : Nat)
    (x : URLStats) :
    ((fun r => if r.short_code == code then
        { r with visit_count := r.visit_count + 1, last_visited_at := some now }
      else r) x).short_code = x.short_code := by
  by_cases hx : x.short_code == code <;> simp [hx]

/-- `increment_visit_count` preserves per-code row counts and never lowers a
visit count. -/
theorem increment_counts_monotone (stats : List URLStats) (code : String)
    (now : Nat) :
    countsMonotone stats (URLStatsRepository.increment_visit_count stats code now) := by
  intro c r hr
  by_cases hex : ∃ x ∈ stats, x.short_code = code
  · rw [increment_eq_map_of_mem stats code now hex]
    unfold URLStatsRepository.get_by_short_code at hr ⊢
    rw [List.find?_map]
    have hp : ((fun x : URLStats => x.short_code == c) ∘ (fun r => if r.short_code == code then
        { r with visit_count := r.visit_count + 1, last_visited_at := some now }
      else r)) = (fun x : URLStats => x.short_code == c) := by
      funext x
      simp only [Function.comp_apply]
      rw [increment_update_keeps_code]
    rw [hp, hr]
    by_cases hc : r.short_code == code
    · exact ⟨_, rfl, by simp [hc]⟩
    · exact ⟨_, rfl, by simp [hc]⟩
  · push_neg at hex
    rw [increment_eq_append_of_absent stats code now hex]
    unfold URLStatsRepository.get_by_short_code at hr ⊢
    rw [List.find?_append, hr]
    exact ⟨r, rfl, le_refl _⟩

/-- `increment_visit_count` preserves the unique-code constraint. -/
theorem increment_preserves_wf (stats : List URLStats) (code : String)
    (now : Nat) (hwf : statsWF stats) :
    statsWF (URLStatsRepository.increment_visit_count stats code now) := by
  by_cases hex : ∃ x ∈ stats, x.short_code = code
  · rw [increment_eq_map_of_mem stats code now hex]
    unfold statsWF at hwf ⊢
    rw [List.pairwise_map]
    exact hwf.imp (fun {a b} hab => by
      rw [increment_update_keeps_code, increment_update_keeps_code]
      exact hab)
  · push_neg at hex
    rw [increment_eq_append_of_absent stats code now hex]
    unfold statsWF at hwf ⊢
    rw [List.pairwise_append]
    refine ⟨hwf, List.pairwise_singleton _ _, ?_⟩
    intro a ha b hb
    simp only [List.mem_singleton] at hb
    subst hb
    exact hex a ha

/-- `increment_visit_count` keeps all counts non-negative. -/
theorem increment_preserves_nonneg (stats : List URLStats) (code : String)
    (now : Nat) (hnn : statsNonneg stats) :
    statsNonneg (URLStatsRepository.increment_visit_count stats code now) := by
  by_cases hex : ∃ x ∈ stats, x.short_code = code
  · rw [increment_eq_map_of_mem stats code now hex]
    intro r hr
    rw [List.mem_map] at hr
    obtain ⟨x, hx, hrx⟩ := hr
    subst hrx
    have := hnn x hx
    by_cases hc : x.short_code == code <;> simp [hc] <;> omega
  · push_neg at hex
    rw [increment_eq_append_of_absent stats code now hex]
    intro r hr
    rw [List.mem_append] at hr
    rcases hr with hr | hr
    · exact hnn r hr
    · simp only [List.mem_singleton] at hr
      subst hr
      simp

/-- After any request, the stats table is either untouched or the result of
one `increment_visit_count`. -/
theorem applyOp_stats_cases (s : SysState) (op : Op) :
    (applyOp s op).stats = s.stats ∨
    ∃ c n, (applyOp s op).stats =
      URLStatsRepository.increment_visit_count s.stats c n := by
  cases op with
  | shorten gen u =>
    cases h : URLService.create_short_url s.urls gen u with
    | ok v => left; simp [applyOp, h]
    | error e => left; simp [applyOp, h]
  | redirect code now =>
    simp only [applyOp]
    unfold Endpoints.redirect_to_url
    cases URLService.get_original_url s.urls code with
    | none => left; rfl
    | some u =>
      by_cases hu : u = ""
      · left; simp [hu]
      · right; exact ⟨code, now, by simp [hu]⟩
  | increment code now => right; exact ⟨code, now, rfl⟩
  | stats_query code => left; rfl

/-- Claim C8: in every reachable state, the `url_stats` table satisfies the
unique-code constraint and all visit counts are non-negative; and across any
further core operation no existing row's visit count decreases. -/
theorem reachable_stats_invariants (s : SysState) (h : Reachable s) :
    statsWF s.stats ∧ statsNonneg s.stats ∧
    ∀ op : Op, countsMonotone s.stats (applyOp s op).stats := by
  have inv : statsWF s.stats ∧ statsNonneg s.stats := by
    induction h with
    | init =>
      exact ⟨List.Pairwise.nil, by intro r hr; exact absurd hr (List.not_mem_nil r)⟩
    | step s' op hr ih =>
      rcases applyOp_stats_cases s' op with he | ⟨c, n, he⟩
      · rw [he]; exact ih
      · rw [he]
        exact ⟨increment_preserves_wf _ _ _ ih.1,
               increment_preserves_nonneg _ _ _ ih.2⟩
  refine ⟨inv.1, inv.2, ?_⟩
  intro op
  rcases applyOp_stats_cases s op with he | ⟨c, n, he⟩
  · rw [he]; exact countsMonotone_refl _
  · rw [he]; exact increment_counts_monotone _ _ _

/-- Witness for C8: the state reached from the empty database by one
increment satisfies the unique-code constraint. -/
theorem reachable_stats_invariants_witness :
    statsWF (applyOp ⟨[], []⟩ (Op.increment "abc" 5)).stats :=
  (reachable_stats_invariants (applyOp ⟨[], []⟩ (Op.increment "abc" 5))
    (Reachable.step ⟨[], []⟩ (Op.increment "abc" 5) Reachable.init)).1

end LinkShort
